import Mathlib

/-!
Shallow embedding of `src/aws/asg/confused_deputy/lambda_function.py`.

The Python file defines a Lambda handler that, for each instance-launch
item of the triggering event, scans the item's tags for the key
`aws:autoscaling:groupName`, looks up the visibility of the item's AMI,
and — when the image is public — suspends the recorded Auto Scaling
Group (failure caught), terminates the instance (failure caught) and
submits a Security Hub finding (failure uncaught).

External AWS calls are modelled by an oracle `Env`; the handler is a pure
function returning the ordered trace of external calls it made together
with either the fixed success response or the uncaught error that
propagated out of it.
-/

namespace ConfusedDeputy

/-- One `{key, value}` entry of `item['tagSet']['items']`. -/
structure Tag where
  key : String
  value : String
deriving Repr, DecidableEq

/-- One element of `event['detail']['responseElements']['instancesSet']['items']`:
instance id, image id and the tag list. -/
structure Item where
  instanceId : String
  imageId : String
  tags : List Tag
deriving Repr, DecidableEq

/-- The fields of the triggering event read by `lambda_handler`:
`event['detail']['eventTime']`, `event['account']`, `event['region']` and
the list of instance items. -/
structure Event where
  eventTime : String
  account : String
  region : String
  items : List Item
deriving Repr, DecidableEq

/-- One element of the `Images` list returned by `describe_images`; the
handler reads only the `Public` flag. -/
structure ImageInfo where
  Public : Bool
deriving Repr, DecidableEq

/-- The `EventDetails` dataclass of the source.  The Python field
`auto_scaling_group_name` is declared `str` but the handler passes
`None` when no tag matched, so it is modelled as `Option String`. -/
structure EventDetails where
  timestamp : String
  instance_id : String
  image_id : String
  account_id : String
  region : String
  auto_scaling_group_name : Option String
deriving Repr, DecidableEq

/-- The finding dict built by `send_invalid_ami_event_to_security_hub`,
flattened: the single element of `Resources` and its nested `Details`
are inlined as `Resource*` fields. -/
structure Finding where
  SchemaVersion : String
  Id : String
  ProductArn : String
  GeneratorId : String
  AwsAccountId : String
  Types : List String
  CreatedAt : String
  UpdatedAt : String
  SeverityLabel : String
  Title : String
  Description : String
  ResourceType : String
  ResourceId : String
  ResourcePartition : String
  ResourceRegion : String
  ResourceImageId : String
  ResourceAutoScalingGroupName : String
  ComplianceStatus : String
  RecordState : String
deriving Repr, DecidableEq

/-- Python truthiness of the optional group name: `None` and the empty
string are falsy, every other string is truthy (`if asg_name:`). -/
def pythonTruthy : Option String → Bool
  | none => false
  | some s => !s.isEmpty

/-- The conditional expression
`event_details.auto_scaling_group_name if event_details.auto_scaling_group_name else 'Not part of an ASG'`. -/
def asgNameOrDefault : Option String → String
  | none => "Not part of an ASG"
  | some g => if g.isEmpty then "Not part of an ASG" else g

/-- The finding dict of `send_invalid_ami_event_to_security_hub`
(lines 20-50 of the source), field by field. -/
def buildFinding (d : EventDetails) : Finding :=
  { SchemaVersion := "2018-10-08"
    Id := d.instance_id ++ "/compliance-check"
    ProductArn := "arn:aws:securityhub:" ++ d.region ++ ":" ++ d.account_id
      ++ ":product/" ++ d.account_id ++ "/default"
    GeneratorId := "custom-compliance-check"
    AwsAccountId := d.account_id
    Types := ["Software and Configuration Checks/Industry and Regulatory Standards"]
    CreatedAt := d.timestamp
    UpdatedAt := d.timestamp
    SeverityLabel := "HIGH"
    Title := "EC2 Instance Non-Compliance with Company Standards"
    Description := "EC2 instance " ++ d.instance_id ++ " with AMI " ++ d.image_id
      ++ " is non-compliant and was terminated."
    ResourceType := "AwsEc2Instance"
    ResourceId := d.instance_id
    ResourcePartition := "aws"
    ResourceRegion := d.region
    ResourceImageId := d.image_id
    ResourceAutoScalingGroupName := asgNameOrDefault d.auto_scaling_group_name
    ComplianceStatus := "FAILED"
    RecordState := "ACTIVE" }

/-- An external call recorded in the invocation trace.  For the two calls
whose failures the handler catches (`suspend_processes`,
`terminate_instances`) the trace records whether the call succeeded. -/
inductive Action where
  | describeImages (imageId : String)
  | suspendProcesses (groupName : String) (ok : Bool)
  | terminateInstances (instanceId : String) (ok : Bool)
  | batchImportFindings (finding : Finding)
deriving Repr, DecidableEq

/-- An exception that escapes `lambda_handler` uncaught. -/
inductive HandlerError where
  | describeImagesFailure (imageId : String)
  | emptyImagesList (imageId : String)
  | batchImportFailure (finding : Finding)
deriving Repr, DecidableEq

/-- Oracle for the three external AWS services.  `Except.error ()` means
the corresponding boto3 call raised an exception. -/
structure Env where
  describeImages : String → Except Unit (List ImageInfo)
  suspendProcesses : String → Except Unit Unit
  terminateInstances : String → Except Unit Unit
  batchImportFindings : Finding → Except Unit Unit

/-- Whether an external call succeeded. -/
def callOk : Except Unit Unit → Bool
  | Except.ok _ => true
  | Except.error _ => false

/-- The tag scan of lines 72-76: iterate over the tags, record the value
of the first tag whose key is `aws:autoscaling:groupName`, then break;
`none` when no tag matches (`asg_name = None`). -/
def scanTags : List Tag → Option String
  | [] => none
  | t :: rest =>
      if t.key = "aws:autoscaling:groupName" then some t.value else scanTags rest

/-- Lines 83-90: `if asg_name:` (Python truthiness, so `None` and `""`
skip), then `suspend_processes` inside `try/except` — the call is made
and its failure is caught, so only its outcome is recorded. -/
def suspendPart (env : Env) : Option String → List Action
  | none => []
  | some g =>
      if g.isEmpty then []
      else [Action.suspendProcesses g (callOk (env.suspendProcesses g))]

/-- The `EventDetails` value constructed for an item at lines 98-105. -/
def itemDetails (eventTime account region : String) (item : Item) : EventDetails :=
  { timestamp := eventTime
    instance_id := item.instanceId
    image_id := item.imageId
    account_id := account
    region := region
    auto_scaling_group_name := scanTags item.tags }

/-- The finding submitted for an item. -/
def itemFinding (eventTime account region : String) (item : Item) : Finding :=
  buildFinding (itemDetails eventTime account region item)

/-- The body of the `for item in ...` loop (lines 67-105) for one item:
tag scan, `describe_images` (uncaught on failure), `['Images'][0]`
(uncaught IndexError on an empty list), and if `Public` is truthy the
suspend / terminate / report sequence.  Returns the trace of external
calls together with the uncaught error, if any. -/
def processItem (env : Env) (eventTime account region : String) (item : Item) :
    List Action × Option HandlerError :=
  match env.describeImages item.imageId with
  | Except.error _ =>
      ([Action.describeImages item.imageId],
       some (HandlerError.describeImagesFailure item.imageId))
  | Except.ok [] =>
      ([Action.describeImages item.imageId],
       some (HandlerError.emptyImagesList item.imageId))
  | Except.ok (info :: _) =>
      if info.Public then
        (Action.describeImages item.imageId ::
           (suspendPart env (scanTags item.tags) ++
             [Action.terminateInstances item.instanceId
                (callOk (env.terminateInstances item.instanceId)),
              Action.batchImportFindings (itemFinding eventTime account region item)]),
         match env.batchImportFindings (itemFinding eventTime account region item) with
         | Except.ok _ => none
         | Except.error _ =>
             some (HandlerError.batchImportFailure
               (itemFinding eventTime account region item)))
      else
        ([Action.describeImages item.imageId], none)

/-- The `for` loop over all items: items are processed in list order and
an uncaught error aborts the remaining items. -/
def processItems (env : Env) (eventTime account region : String) :
    List Item → List Action × Option HandlerError
  | [] => ([], none)
  | item :: rest =>
      match processItem env eventTime account region item with
      | (tr, some e) => (tr, some e)
      | (tr, none) =>
          (tr ++ (processItems env eventTime account region rest).1,
           (processItems env eventTime account region rest).2)

/-- The handler's return value (lines 107-110). -/
structure Response where
  statusCode : Nat
  body : String
deriving Repr, DecidableEq

/-- `json.dumps` of a plain string without escape-worthy characters:
it is wrapped in double quotes. -/
def jsonDumpsStr (s : String) : String := "\"" ++ s ++ "\""

/-- `lambda_handler`: process every item, then return
`{'statusCode': 200, 'body': json.dumps('Evaluation complete.')}`;
an uncaught error propagates instead of a return value. -/
def lambda_handler (env : Env) (event : Event) :
    List Action × Except HandlerError Response :=
  match processItems env event.eventTime event.account event.region event.items with
  | (tr, some e) => (tr, Except.error e)
  | (tr, none) =>
      (tr, Except.ok { statusCode := 200, body := jsonDumpsStr "Evaluation complete." })

/-- Whether an action is a termination attempt for an instance. -/
def Action.isTerminationOf : Action → String → Bool
  | Action.terminateInstances i _, iid => i == iid
  | _, _ => false

/-- Whether an action is a suspension attempt for a group. -/
def Action.isSuspensionOf : Action → String → Bool
  | Action.suspendProcesses g' _, g => g' == g
  | _, _ => false

/-- Whether an action submits a finding whose resource is the given
instance. -/
def Action.isFindingFor : Action → String → Bool
  | Action.batchImportFindings f, iid => f.ResourceId == iid
  | _, _ => false

/-- Whether the trace records a termination attempt for an instance. -/
def attemptsTermination (tr : List Action) (iid : String) : Bool :=
  tr.any (Action.isTerminationOf · iid)

/-- Whether the trace records a suspension attempt for a group. -/
def attemptsSuspension (tr : List Action) (g : String) : Bool :=
  tr.any (Action.isSuspensionOf · g)

/-- Whether the trace records a finding submission whose resource is the
given instance. -/
def submitsFindingFor (tr : List Action) (iid : String) : Bool :=
  tr.any (Action.isFindingFor · iid)

/-- The finding submitted by an action, if it is a submission. -/
def Action.findingOf : Action → Option Finding
  | Action.batchImportFindings f => some f
  | _ => none

/-- The findings submitted along a trace, in order. -/
def findingsSubmitted (tr : List Action) : List Finding :=
  tr.filterMap Action.findingOf

/-! Concrete fixtures used by witnesses and counterexamples. -/

/-- Environment in which every external call succeeds and every image is
reported public. -/
def envAllOk : Env :=
  { describeImages := fun _ => Except.ok [{ Public := true }]
    suspendProcesses := fun _ => Except.ok ()
    terminateInstances := fun _ => Except.ok ()
    batchImportFindings := fun _ => Except.ok () }

/-- Like `envAllOk` but every image is reported private. -/
def envNotPublic : Env :=
  { envAllOk with describeImages := fun _ => Except.ok [{ Public := false }] }

/-- Like `envAllOk` but `describe_images` raises. -/
def envFailDescribe : Env :=
  { envAllOk with describeImages := fun _ => Except.error () }

/-- Like `envAllOk` but `describe_images` returns an empty `Images` list. -/
def envEmptyImages : Env :=
  { envAllOk with describeImages := fun _ => Except.ok [] }

/-- Like `envAllOk` but `batch_import_findings` raises. -/
def envFailBatch : Env :=
  { envAllOk with batchImportFindings := fun _ => Except.error () }

/-- Like `envAllOk` but `suspend_processes` and `terminate_instances`
both raise. -/
def envFailSuspTerm : Env :=
  { envAllOk with
    suspendProcesses := fun _ => Except.error ()
    terminateInstances := fun _ => Except.error () }

/-- Item carrying the ASG tag with a nonempty group name. -/
def itemWithAsg : Item :=
  { instanceId := "i-1", imageId := "ami-1",
    tags := [{ key := "aws:autoscaling:groupName", value := "my-asg" }] }

/-- Item with no tags at all. -/
def itemNoTag : Item :=
  { instanceId := "i-2", imageId := "ami-2", tags := [] }

/-- Item carrying the ASG tag with an empty-string value. -/
def itemEmptyTagValue : Item :=
  { instanceId := "i-3", imageId := "ami-3",
    tags := [{ key := "aws:autoscaling:groupName", value := "" }] }

/-- Event with a tagged and an untagged item. -/
def eventTwoItems : Event :=
  { eventTime := "t", account := "acc", region := "reg",
    items := [itemWithAsg, itemNoTag] }

/-- Event with only the ASG-tagged item. -/
def eventOneItem : Event :=
  { eventTime := "t", account := "acc", region := "reg",
    items := [itemWithAsg] }

/-! Helper lemmas about the embedding. -/

/-- The suspension step never records a termination attempt. -/
lemma attemptsTermination_suspendPart (env : Env) (o : Option String) (iid : String) :
    attemptsTermination (suspendPart env o) iid = false := by
  cases o with
  | none => rfl
  | some g =>
      by_cases hg : g.isEmpty <;>
        simp [suspendPart, hg, attemptsTermination, Action.isTerminationOf]

/-- The suspension step never records a finding submission. -/
lemma submitsFindingFor_suspendPart (env : Env) (o : Option String) (iid : String) :
    submitsFindingFor (suspendPart env o) iid = false := by
  cases o with
  | none => rfl
  | some g =>
      by_cases hg : g.isEmpty <;>
        simp [suspendPart, hg, submitsFindingFor, Action.isFindingFor]

/-- Every action of the suspension step is a suspension. -/
lemma mem_suspendPart (env : Env) (o : Option String) (a : Action)
    (ha : a ∈ suspendPart env o) : ∃ g b, a = Action.suspendProcesses g b := by
  cases o with
  | none => cases ha
  | some g =>
      by_cases hg : g.isEmpty
      · simp [suspendPart, hg] at ha
      · simp [suspendPart, hg] at ha
        exact ⟨g, callOk (env.suspendProcesses g), ha⟩

/-- The suspension step contributes no finding to the trace. -/
lemma findingsSubmitted_suspendPart (env : Env) (o : Option String) :
    findingsSubmitted (suspendPart env o) = [] := by
  cases o with
  | none => rfl
  | some g =>
      by_cases hg : g.isEmpty <;>
        simp [suspendPart, hg, findingsSubmitted, Action.findingOf]

/-- The findings an item's processing submits: exactly that item's
finding when the lookup reports a public image, nothing otherwise. -/
lemma findingsSubmitted_processItem (env : Env) (t a r : String) (item : Item) :
    findingsSubmitted (processItem env t a r item).1 =
      match env.describeImages item.imageId with
      | Except.ok (info :: _) =>
          if info.Public then [itemFinding t a r item] else []
      | _ => [] := by
  cases hd : env.describeImages item.imageId with
  | error e => simp [processItem, hd, findingsSubmitted, Action.findingOf]
  | ok images =>
      cases images with
      | nil => simp [processItem, hd, findingsSubmitted, Action.findingOf]
      | cons info rest =>
          by_cases hp : info.Public
          · have hsp := findingsSubmitted_suspendPart env (scanTags item.tags)
            simp only [findingsSubmitted] at hsp ⊢
            simp [processItem, hd, hp, Action.findingOf, List.filterMap_append, hsp]
          · simp [processItem, hd, hp, findingsSubmitted, Action.findingOf]

/-- The uncaught error of an item's processing depends only on the
lookup and finding-submission services, not on the caught suspension
and termination calls. -/
lemma processItem_snd_env_indep (env env' : Env) (t a r : String) (item : Item)
    (hd : env'.describeImages = env.describeImages)
    (hb : env'.batchImportFindings = env.batchImportFindings) :
    (processItem env' t a r item).2 = (processItem env t a r item).2 := by
  cases hdd : env.describeImages item.imageId with
  | error e =>
      have hdd' : env'.describeImages item.imageId = Except.error e := by rw [hd, hdd]
      simp [processItem, hdd, hdd']
  | ok images =>
      have hdd' : env'.describeImages item.imageId = Except.ok images := by rw [hd, hdd]
      cases images with
      | nil => simp [processItem, hdd, hdd']
      | cons info rest =>
          by_cases hp : info.Public <;> simp [processItem, hdd, hdd', hp, hb]

/-- Neither the uncaught error nor the submitted findings of the whole
loop depend on the caught suspension and termination calls. -/
lemma processItems_env_indep (env env' : Env) (t a r : String)
    (hd : env'.describeImages = env.describeImages)
    (hb : env'.batchImportFindings = env.batchImportFindings) (items : List Item) :
    (processItems env' t a r items).2 = (processItems env t a r items).2
    ∧ findingsSubmitted (processItems env' t a r items).1
        = findingsSubmitted (processItems env t a r items).1 := by
  induction items with
  | nil => exact ⟨rfl, rfl⟩
  | cons item rest ih =>
      have hsnd := processItem_snd_env_indep env env' t a r item hd hb
      have hfs : findingsSubmitted (processItem env' t a r item).1
          = findingsSubmitted (processItem env t a r item).1 := by
        rw [findingsSubmitted_processItem, findingsSubmitted_processItem, hd]
      cases hi' : processItem env' t a r item with
      | mk tr' e' =>
          cases hi : processItem env t a r item with
          | mk tr e =>
              rw [hi', hi] at hsnd hfs
              simp only at hsnd hfs
              subst hsnd
              cases e' with
              | some x => simp [processItems, hi', hi, hfs]
              | none =>
                  simp only [processItems, hi', hi]
                  refine ⟨ih.1, ?_⟩
                  simp only [findingsSubmitted, List.filterMap_append] at hfs ih ⊢
                  rw [hfs, ih.2]

/-- An error-free prefix of the item list contributes its trace and then
the remaining items are processed. -/
lemma processItems_append (env : Env) (t a r : String) (l1 l2 : List Item)
    (h : (processItems env t a r l1).2 = none) :
    processItems env t a r (l1 ++ l2) =
      ((processItems env t a r l1).1 ++ (processItems env t a r l2).1,
       (processItems env t a r l2).2) := by
  induction l1 with
  | nil => simp [processItems]
  | cons item rest ih =>
      cases hp : processItem env t a r item with
      | mk tr err =>
          cases err with
          | some e =>
              exfalso
              simp [processItems, hp] at h
          | none =>
              simp only [processItems, List.cons_append, hp] at h ⊢
              simp only [List.append_eq]
              rw [ih h]
              simp [List.append_assoc]

/-- The only finding an item's processing can submit is that item's
finding. -/
lemma finding_in_processItem (env : Env) (t a r : String) (item : Item) (f : Finding)
    (hf : Action.batchImportFindings f ∈ (processItem env t a r item).1) :
    f = itemFinding t a r item := by
  cases hd : env.describeImages item.imageId with
  | error e =>
      simp [processItem, hd] at hf
  | ok images =>
      cases images with
      | nil => simp [processItem, hd] at hf
      | cons info rest =>
          by_cases hp : info.Public
          · simp [processItem, hd, hp] at hf
            rcases hf with hf | rfl
            · rcases mem_suspendPart env _ _ hf with ⟨g, b, hgb⟩
              cases hgb
            · rfl
          · simp [processItem, hd, hp] at hf

/-! Claim theorems. -/

/-- C1: for every item, a compliance finding is submitted for that item's
instance if and only if termination of that instance was attempted in the
handling of that item, and whenever the image-visibility lookup answers,
both happen exactly when the reported image is public. -/
theorem c1_finding_iff_termination (env : Env) (t a r : String) (item : Item) :
    submitsFindingFor (processItem env t a r item).1 item.instanceId
      = attemptsTermination (processItem env t a r item).1 item.instanceId
    ∧ ∀ info rest, env.describeImages item.imageId = Except.ok (info :: rest) →
        attemptsTermination (processItem env t a r item).1 item.instanceId
          = info.Public := by
  cases hd : env.describeImages item.imageId with
  | error e =>
      refine ⟨?_, ?_⟩
      · simp [processItem, hd, submitsFindingFor, attemptsTermination,
          Action.isFindingFor, Action.isTerminationOf]
      · intro info rest h
        simp at h
  | ok images =>
      cases images with
      | nil =>
          refine ⟨?_, ?_⟩
          · simp [processItem, hd, submitsFindingFor, attemptsTermination,
              Action.isFindingFor, Action.isTerminationOf]
          · intro info rest h
            simp at h
      | cons info0 rest0 =>
          have hkey : ∀ (info : ImageInfo) (rest : List ImageInfo),
              (Except.ok (info0 :: rest0) : Except Unit (List ImageInfo))
                = Except.ok (info :: rest) →
              info = info0 := by
            intro info rest h
            simp only [Except.ok.injEq, List.cons.injEq] at h
            exact h.1.symm
          by_cases hp : info0.Public
          · refine ⟨?_, ?_⟩
            · simp [processItem, hd, hp, submitsFindingFor, attemptsTermination,
                List.any_append, Action.isFindingFor, Action.isTerminationOf,
                itemFinding, buildFinding, itemDetails,
                attemptsTermination_suspendPart, submitsFindingFor_suspendPart]
            · intro info rest h
              rw [hkey info rest h, hp]
              simp [processItem, hd, hp, attemptsTermination, List.any_append,
                Action.isTerminationOf, attemptsTermination_suspendPart]
          · refine ⟨?_, ?_⟩
            · simp [processItem, hd, hp, submitsFindingFor, attemptsTermination,
                Action.isFindingFor, Action.isTerminationOf]
            · intro info rest h
              rw [hkey info rest h]
              simp only [Bool.not_eq_true] at hp
              rw [hp]
              simp [processItem, hd, hp, attemptsTermination, Action.isTerminationOf]

/-- Witness for C1: concrete public-image item; the finding/termination
equivalence holds and both sides are `true`. -/
theorem c1_finding_iff_termination_witness :
    submitsFindingFor (processItem envAllOk "t" "acc" "reg" itemWithAsg).1 "i-1"
      = attemptsTermination (processItem envAllOk "t" "acc" "reg" itemWithAsg).1 "i-1"
    ∧ attemptsTermination (processItem envAllOk "t" "acc" "reg" itemWithAsg).1 "i-1"
      = true := by
  refine ⟨(c1_finding_iff_termination envAllOk "t" "acc" "reg" itemWithAsg).1, ?_⟩
  exact (c1_finding_iff_termination envAllOk "t" "acc" "reg" itemWithAsg).2
    { Public := true } [] rfl

/-- C2: when the lookup reports the item's image as not public, the
handler makes only the lookup call — no suspension, no termination, no
finding — and raises nothing. -/
theorem c2_not_public_no_action (env : Env) (t a r : String) (item : Item)
    (info : ImageInfo) (rest : List ImageInfo)
    (hd : env.describeImages item.imageId = Except.ok (info :: rest))
    (hp : info.Public = false) :
    processItem env t a r item = ([Action.describeImages item.imageId], none) := by
  simp [processItem, hd, hp]

/-- Witness for C2 at a concrete private-image item. -/
theorem c2_not_public_no_action_witness :
    processItem envNotPublic "t" "acc" "reg" itemWithAsg
      = ([Action.describeImages "ami-1"], none) :=
  c2_not_public_no_action envNotPublic "t" "acc" "reg" itemWithAsg
    { Public := false } [] rfl rfl

/-- C3: for a public image, when a (nonempty, hence truthy) group name
was recorded the trace is lookup, suspension of that group, termination,
finding submission, in that order; when no group name was recorded the
suspension is skipped and the rest proceeds in the same order. -/
theorem c3_public_ordering (env : Env) (t a r : String) (item : Item)
    (info : ImageInfo) (rest : List ImageInfo)
    (hd : env.describeImages item.imageId = Except.ok (info :: rest))
    (hp : info.Public = true) :
    (∀ g, scanTags item.tags = some g → g ≠ "" →
      (processItem env t a r item).1 =
        [Action.describeImages item.imageId,
         Action.suspendProcesses g (callOk (env.suspendProcesses g)),
         Action.terminateInstances item.instanceId
           (callOk (env.terminateInstances item.instanceId)),
         Action.batchImportFindings (itemFinding t a r item)])
    ∧ (scanTags item.tags = none →
      (processItem env t a r item).1 =
        [Action.describeImages item.imageId,
         Action.terminateInstances item.instanceId
           (callOk (env.terminateInstances item.instanceId)),
         Action.batchImportFindings (itemFinding t a r item)]) := by
  constructor
  · intro g hg hne
    have hgE : g.isEmpty = false := by
      rw [Bool.eq_false_iff]
      intro hcon
      exact hne ((String.isEmpty_iff g).mp hcon)
    simp [processItem, hd, hp, suspendPart, hg, hgE]
  · intro hg
    simp [processItem, hd, hp, suspendPart, hg]

/-- Witness for C3: both branches at concrete items (with and without
the ASG tag). -/
theorem c3_public_ordering_witness :
    (processItem envAllOk "t" "acc" "reg" itemWithAsg).1 =
      [Action.describeImages "ami-1",
       Action.suspendProcesses "my-asg" true,
       Action.terminateInstances "i-1" true,
       Action.batchImportFindings (itemFinding "t" "acc" "reg" itemWithAsg)]
    ∧ (processItem envAllOk "t" "acc" "reg" itemNoTag).1 =
      [Action.describeImages "ami-2",
       Action.terminateInstances "i-2" true,
       Action.batchImportFindings (itemFinding "t" "acc" "reg" itemNoTag)] := by
  constructor
  · exact (c3_public_ordering envAllOk "t" "acc" "reg" itemWithAsg
      { Public := true } [] rfl rfl).1 "my-asg" rfl (by decide)
  · exact (c3_public_ordering envAllOk "t" "acc" "reg" itemNoTag
      { Public := true } [] rfl rfl).2 rfl

/-- Counterexample to C4 as stated: the item's tag list contains the key
`aws:autoscaling:groupName` with the empty-string value, a finding is
submitted for the item, yet the finding's `AutoScalingGroupName` field
is not the tag value `""` but the fallback literal. -/
theorem c4_asg_name_counterexample :
    itemEmptyTagValue.tags = [{ key := "aws:autoscaling:groupName", value := "" }]
    ∧ Action.batchImportFindings (itemFinding "t" "acc" "reg" itemEmptyTagValue)
        ∈ (processItem envAllOk "t" "acc" "reg" itemEmptyTagValue).1
    ∧ (itemFinding "t" "acc" "reg" itemEmptyTagValue).ResourceAutoScalingGroupName
        = "Not part of an ASG"
    ∧ "Not part of an ASG" ≠ "" := by
  refine ⟨rfl, ?_, by decide, by decide⟩
  decide

/-- C4 amended: the finding's `AutoScalingGroupName` equals the recorded
tag value for key `aws:autoscaling:groupName` when that value is
nonempty, and the literal `"Not part of an ASG"` when no such tag is
present or its value is the empty string. -/
theorem c4_asg_name_field (env : Env) (t a r : String) (item : Item) (f : Finding)
    (hf : Action.batchImportFindings f ∈ (processItem env t a r item).1) :
    f.ResourceAutoScalingGroupName =
      match scanTags item.tags with
      | some g => if g = "" then "Not part of an ASG" else g
      | none => "Not part of an ASG" := by
  rw [finding_in_processItem env t a r item f hf]
  show asgNameOrDefault (scanTags item.tags) = _
  cases hs : scanTags item.tags with
  | none => rfl
  | some g =>
      by_cases hg : g = ""
      · subst hg
        decide
      · have hgE : g.isEmpty = false := by
          rw [Bool.eq_false_iff]
          intro hcon
          exact hg ((String.isEmpty_iff g).mp hcon)
        simp [asgNameOrDefault, hgE, hg]

/-- Witness for the amended C4 at a concrete item carrying a nonempty
group-name tag. -/
theorem c4_asg_name_field_witness :
    (itemFinding "t" "acc" "reg" itemWithAsg).ResourceAutoScalingGroupName
      = "my-asg" := by
  have h := c4_asg_name_field envAllOk "t" "acc" "reg" itemWithAsg
    (itemFinding "t" "acc" "reg" itemWithAsg) (by decide)
  simpa [scanTags, itemWithAsg] using h

/-- C5: the handler's outcome and the findings it submits do not depend
on the suspension and termination services at all — their failures are
caught, so they can prevent neither the finding submission for the same
item nor the processing of later items. -/
theorem c5_caught_failures_harmless (env env' : Env) (event : Event)
    (hd : env'.describeImages = env.describeImages)
    (hb : env'.batchImportFindings = env.batchImportFindings) :
    (lambda_handler env' event).2 = (lambda_handler env event).2
    ∧ findingsSubmitted (lambda_handler env' event).1
        = findingsSubmitted (lambda_handler env event).1 := by
  have h := processItems_env_indep env env' event.eventTime event.account
    event.region hd hb event.items
  cases hq' : processItems env' event.eventTime event.account event.region
      event.items with
  | mk tr' e' =>
      cases hq : processItems env event.eventTime event.account event.region
          event.items with
      | mk tr e =>
          rw [hq', hq] at h
          obtain ⟨he, hf⟩ := h
          simp only at he hf
          subst he
          cases e' with
          | some x => exact ⟨by simp [lambda_handler, hq, hq'],
              by simpa [lambda_handler, hq, hq'] using hf⟩
          | none => exact ⟨by simp [lambda_handler, hq, hq'],
              by simpa [lambda_handler, hq, hq'] using hf⟩

/-- Witness for C5: environment in which suspension and termination both
raise versus the all-successful one — same outcome, same findings. -/
theorem c5_caught_failures_harmless_witness :
    (lambda_handler envFailSuspTerm eventTwoItems).2
      = (lambda_handler envAllOk eventTwoItems).2
    ∧ findingsSubmitted (lambda_handler envFailSuspTerm eventTwoItems).1
      = findingsSubmitted (lambda_handler envAllOk eventTwoItems).1 :=
  c5_caught_failures_harmless envAllOk envFailSuspTerm eventTwoItems rfl rfl

/-- C6: an image-visibility lookup failure, or a finding-submission
failure on a public-image item, yields an uncaught error out of
`lambda_handler`; the trace stops at the failing call, so neither the
rest of the current item nor any subsequent item is processed. -/
theorem c6_fatal_failures_propagate (env : Env) (t a r : String)
    (pre : List Item) (item : Item) (rest : List Item)
    (hpre : (processItems env t a r pre).2 = none) :
    (env.describeImages item.imageId = Except.error () →
      lambda_handler env
          { eventTime := t, account := a, region := r, items := pre ++ item :: rest }
        = ((processItems env t a r pre).1 ++ [Action.describeImages item.imageId],
           Except.error (HandlerError.describeImagesFailure item.imageId)))
    ∧ (∀ info irest, env.describeImages item.imageId = Except.ok (info :: irest) →
        info.Public = true →
        env.batchImportFindings (itemFinding t a r item) = Except.error () →
        lambda_handler env
            { eventTime := t, account := a, region := r, items := pre ++ item :: rest }
          = ((processItems env t a r pre).1 ++ (processItem env t a r item).1,
             Except.error (HandlerError.batchImportFailure (itemFinding t a r item)))) := by
  have happ := processItems_append env t a r pre (item :: rest) hpre
  constructor
  · intro hd
    have hitem : processItem env t a r item =
        ([Action.describeImages item.imageId],
         some (HandlerError.describeImagesFailure item.imageId)) := by
      simp [processItem, hd]
    simp [lambda_handler, happ, processItems, hitem]
  · intro info irest hd hp hb
    have hitem2 : (processItem env t a r item).2 =
        some (HandlerError.batchImportFailure (itemFinding t a r item)) := by
      simp [processItem, hd, hp, hb]
    cases hi : processItem env t a r item with
    | mk tr e =>
        rw [hi] at hitem2
        simp only at hitem2
        subst hitem2
        simp [lambda_handler, happ, processItems, hi]

/-- Witness for C6: a failing lookup on a one-item event aborts the
invocation with only the lookup in the trace. -/
theorem c6_fatal_failures_propagate_witness :
    lambda_handler envFailDescribe eventOneItem
      = ([Action.describeImages "ami-1"],
         Except.error (HandlerError.describeImagesFailure "ami-1")) := by
  have h := (c6_fatal_failures_propagate envFailDescribe "t" "acc" "reg"
    [] itemWithAsg [] rfl).1 rfl
  simpa [processItems, eventOneItem] using h

/-- An item raises no uncaught error when its lookup answers with a
nonempty image list and finding submission succeeds. -/
lemma processItem_snd_none (env : Env) (t a r : String) (item : Item)
    (hdesc : ∃ info rest, env.describeImages item.imageId = Except.ok (info :: rest))
    (hb : ∀ f, env.batchImportFindings f = Except.ok ()) :
    (processItem env t a r item).2 = none := by
  obtain ⟨info, rest, hd⟩ := hdesc
  by_cases hp : info.Public <;> simp [processItem, hd, hp, hb]

/-- The loop raises no uncaught error when no lookup and no finding
submission fails. -/
lemma processItems_snd_none (env : Env) (t a r : String) (items : List Item)
    (hdesc : ∀ imageId, ∃ info rest,
      env.describeImages imageId = Except.ok (info :: rest))
    (hb : ∀ f, env.batchImportFindings f = Except.ok ()) :
    (processItems env t a r items).2 = none := by
  induction items with
  | nil => rfl
  | cons item rest ih =>
      have h1 := processItem_snd_none env t a r item (hdesc item.imageId) hb
      cases hi : processItem env t a r item with
      | mk tr e =>
          rw [hi] at h1
          simp only at h1
          subst h1
          simp [processItems, hi, ih]

/-- C7: every normal return of `lambda_handler` is exactly
`{statusCode: 200, body: "\"Evaluation complete.\""}`, and whenever no
lookup or finding-submission failure occurs the handler does return it —
regardless of how the suspension and termination calls fared. -/
theorem c7_fixed_success_response (env : Env) (event : Event) :
    (∀ resp, (lambda_handler env event).2 = Except.ok resp →
      resp = { statusCode := 200, body := "\"Evaluation complete.\"" })
    ∧ ((∀ imageId, ∃ info rest,
          env.describeImages imageId = Except.ok (info :: rest)) →
       (∀ f, env.batchImportFindings f = Except.ok ()) →
       (lambda_handler env event).2
         = Except.ok { statusCode := 200, body := "\"Evaluation complete.\"" }) := by
  constructor
  · intro resp hresp
    cases hq : processItems env event.eventTime event.account event.region
        event.items with
    | mk tr e =>
        cases e with
        | some x => simp [lambda_handler, hq] at hresp
        | none =>
            simp [lambda_handler, hq, jsonDumpsStr] at hresp
            rw [← hresp]
  · intro hdesc hb
    have h := processItems_snd_none env event.eventTime event.account event.region
      event.items hdesc hb
    cases hq : processItems env event.eventTime event.account event.region
        event.items with
    | mk tr e =>
        rw [hq] at h
        simp only at h
        subst h
        simp [lambda_handler, hq, jsonDumpsStr]

/-- Witness for C7: concrete event under the all-successful environment. -/
theorem c7_fixed_success_response_witness :
    (lambda_handler envAllOk eventTwoItems).2
      = Except.ok { statusCode := 200, body := "\"Evaluation complete.\"" } :=
  (c7_fixed_success_response envAllOk eventTwoItems).2
    (fun _ => ⟨{ Public := true }, [], rfl⟩) (fun _ => rfl)

/-- C8: every finding submitted for an item carries exactly the fixed
schema values: version, id, generator, product ARN built from region and
account, event timestamp, severity, compliance status, record state and
the description naming the instance and image. -/
theorem c8_finding_schema (env : Env) (t a r : String) (item : Item) (f : Finding)
    (hf : Action.batchImportFindings f ∈ (processItem env t a r item).1) :
    f.SchemaVersion = "2018-10-08"
    ∧ f.Id = item.instanceId ++ "/compliance-check"
    ∧ f.GeneratorId = "custom-compliance-check"
    ∧ f.ProductArn
        = "arn:aws:securityhub:" ++ r ++ ":" ++ a ++ ":product/" ++ a ++ "/default"
    ∧ f.CreatedAt = t
    ∧ f.UpdatedAt = t
    ∧ f.SeverityLabel = "HIGH"
    ∧ f.ComplianceStatus = "FAILED"
    ∧ f.RecordState = "ACTIVE"
    ∧ f.Description = "EC2 instance " ++ item.instanceId ++ " with AMI "
        ++ item.imageId ++ " is non-compliant and was terminated." := by
  rw [finding_in_processItem env t a r item f hf]
  exact ⟨rfl, rfl, rfl, rfl, rfl, rfl, rfl, rfl, rfl, rfl⟩

/-- Witness for C8 at a concrete submitted finding. -/
theorem c8_finding_schema_witness :
    (itemFinding "t" "acc" "reg" itemWithAsg).SchemaVersion = "2018-10-08"
    ∧ (itemFinding "t" "acc" "reg" itemWithAsg).Id = "i-1" ++ "/compliance-check"
    ∧ (itemFinding "t" "acc" "reg" itemWithAsg).GeneratorId
        = "custom-compliance-check"
    ∧ (itemFinding "t" "acc" "reg" itemWithAsg).ProductArn
        = "arn:aws:securityhub:" ++ "reg" ++ ":" ++ "acc" ++ ":product/"
          ++ "acc" ++ "/default"
    ∧ (itemFinding "t" "acc" "reg" itemWithAsg).CreatedAt = "t"
    ∧ (itemFinding "t" "acc" "reg" itemWithAsg).UpdatedAt = "t"
    ∧ (itemFinding "t" "acc" "reg" itemWithAsg).SeverityLabel = "HIGH"
    ∧ (itemFinding "t" "acc" "reg" itemWithAsg).ComplianceStatus = "FAILED"
    ∧ (itemFinding "t" "acc" "reg" itemWithAsg).RecordState = "ACTIVE"
    ∧ (itemFinding "t" "acc" "reg" itemWithAsg).Description
        = "EC2 instance " ++ "i-1" ++ " with AMI " ++ "ami-1"
          ++ " is non-compliant and was terminated." :=
  c8_finding_schema envAllOk "t" "acc" "reg" itemWithAsg
    (itemFinding "t" "acc" "reg" itemWithAsg) (by decide)

/-- C9: only the head of the returned `Images` list matters, and a
successful lookup with an empty list raises an uncaught error before any
suspension, termination or finding submission for the item, aborting the
invocation. -/
theorem c9_first_image_only (env : Env) (t a r : String) (item : Item)
    (rest : List Item) :
    (env.describeImages item.imageId = Except.ok [] →
      lambda_handler env
          { eventTime := t, account := a, region := r, items := item :: rest }
        = ([Action.describeImages item.imageId],
           Except.error (HandlerError.emptyImagesList item.imageId)))
    ∧ (∀ env' info tl tl',
        env.describeImages item.imageId = Except.ok (info :: tl) →
        env'.describeImages item.imageId = Except.ok (info :: tl') →
        env'.suspendProcesses = env.suspendProcesses →
        env'.terminateInstances = env.terminateInstances →
        env'.batchImportFindings = env.batchImportFindings →
        processItem env' t a r item = processItem env t a r item) := by
  constructor
  · intro hd
    have hitem : processItem env t a r item =
        ([Action.describeImages item.imageId],
         some (HandlerError.emptyImagesList item.imageId)) := by
      simp [processItem, hd]
    simp [lambda_handler, processItems, hitem]
  · intro env' info tl tl' hd hd' hs ht hb
    have hsp : ∀ o, suspendPart env' o = suspendPart env o := by
      intro o
      cases o with
      | none => rfl
      | some g => by_cases hg : g.isEmpty <;> simp [suspendPart, hg, hs]
    by_cases hp : info.Public <;> simp [processItem, hd, hd', hp, hsp, ht, hb]

/-- Witness for C9: empty `Images` list on a one-item event fails the
invocation with only the lookup in the trace. -/
theorem c9_first_image_only_witness :
    lambda_handler envEmptyImages eventOneItem
      = ([Action.describeImages "ami-1"],
         Except.error (HandlerError.emptyImagesList "ami-1")) := by
  have h := (c9_first_image_only envEmptyImages "t" "acc" "reg" itemWithAsg []).1 rfl
  simpa [eventOneItem] using h

/-- C10: an item whose recorded group-name tag value is the empty string
is treated as standalone — with a public image the suspension is skipped
and the finding names `"Not part of an ASG"` instead of the empty tag
value. -/
theorem c10_empty_tag_standalone (env : Env) (t a r : String) (item : Item)
    (info : ImageInfo) (rest : List ImageInfo)
    (htag : scanTags item.tags = some "")
    (hd : env.describeImages item.imageId = Except.ok (info :: rest))
    (hp : info.Public = true) :
    (processItem env t a r item).1 =
      [Action.describeImages item.imageId,
       Action.terminateInstances item.instanceId
         (callOk (env.terminateInstances item.instanceId)),
       Action.batchImportFindings (itemFinding t a r item)]
    ∧ (itemFinding t a r item).ResourceAutoScalingGroupName
        = "Not part of an ASG" := by
  constructor
  · have hemp : "".isEmpty = true := rfl
    simp [processItem, hd, hp, suspendPart, htag, hemp]
  · show asgNameOrDefault (scanTags item.tags) = _
    rw [htag]
    decide

/-- Witness for C10 at the concrete empty-tag-value item. -/
theorem c10_empty_tag_standalone_witness :
    (processItem envAllOk "t" "acc" "reg" itemEmptyTagValue).1 =
      [Action.describeImages "ami-3",
       Action.terminateInstances "i-3"
         (callOk (envAllOk.terminateInstances "i-3")),
       Action.batchImportFindings (itemFinding "t" "acc" "reg" itemEmptyTagValue)]
    ∧ (itemFinding "t" "acc" "reg" itemEmptyTagValue).ResourceAutoScalingGroupName
        = "Not part of an ASG" :=
  c10_empty_tag_standalone envAllOk "t" "acc" "reg" itemEmptyTagValue
    { Public := true } [] rfl rfl rfl

end ConfusedDeputy
